import Mathlib

/-!
Verification of the CPPJourney teaching exercises.

Each C++ exercise is shallowly embedded: `double` values are modelled as
rationals (the programs only compare, add, multiply and divide them, and all
literals involved are exactly representable), `int` values as `Int`, thrown
`std::invalid_argument` exceptions as `Except String`, and console / file
output as explicit lists.
-/

namespace OrderProcessing

/-- Embedding of `struct Order` from
`phase1/step1/exercise2-order-processing-system/order_processing_system.cpp`.
`OrderType` is a `char`-backed enum in the source, so the underlying field is
modelled as a `Char`; the named enumerators are `'M'`, `'L'` and `'S'`. -/
structure Order where
  orderId : Int
  symbol : String
  quantity : Int
  price : ℚ
  orderType : Char
  deriving Repr, DecidableEq

/-- Embedding of the `Order` constructor: the member-initializer list followed
by the four range checks, each `throw std::invalid_argument` becoming an
`Except.error`. The checks appear in source order: order type, price,
quantity, symbol length. -/
def Order.mk? (id : Int) (sym : String) (qty : Int) (prc : ℚ) (type : Char) :
    Except String Order :=
  if type ≠ 'M' ∧ type ≠ 'L' ∧ type ≠ 'S' then
    Except.error "Invalid order type"
  else if prc ≤ 0 then
    Except.error "Price must be positive"
  else if qty > 100000 ∨ qty < 1 then
    Except.error "Quantity must be between 1 and 100000"
  else if sym.length > 8 then
    Except.error "Symbol must be 8 chars max"
  else
    Except.ok ⟨id, sym, qty, prc, type⟩

/-- Embedding of `class OrderProcessingSystem`: its single data member, the
`std::vector<Order> orders`. -/
structure OrderProcessingSystem where
  orders : List Order
  deriving Repr, DecidableEq

/-- Embedding of `OrderProcessingSystem::addOrder`: `orders.push_back(order)`. -/
def OrderProcessingSystem.addOrder (sys : OrderProcessingSystem) (order : Order) :
    OrderProcessingSystem :=
  ⟨sys.orders ++ [order]⟩

/-- Embedding of `OrderProcessingSystem::getOrderById`: return the first
stored order with the given id, else `throw std::invalid_argument("Order not
found")`. -/
def OrderProcessingSystem.getOrderById (sys : OrderProcessingSystem) (id : Int) :
    Except String Order :=
  match sys.orders.find? (fun order => order.orderId == id) with
  | some order => Except.ok order
  | none => Except.error "Order not found"

/-- Embedding of `OrderProcessingSystem::getOrderBySymbol`: return the first
stored order with the given symbol, else `throw
std::invalid_argument("Order not found")`. -/
def OrderProcessingSystem.getOrderBySymbol (sys : OrderProcessingSystem) (symbol : String) :
    Except String Order :=
  match sys.orders.find? (fun order => order.symbol == symbol) with
  | some order => Except.ok order
  | none => Except.error "Order not found"

/-- Embedding of `populateOrders`: builds the three literal orders through the
validating constructor and adds them to the system. -/
def populateOrders : Except String OrderProcessingSystem := do
  let o1 ← Order.mk? 1 "AAPL" 100 150 'M'
  let o2 ← Order.mk? 2 "GOOG" 200 2500 'L'
  let o3 ← Order.mk? 3 "MSFT" 300 350 'S'
  pure ((((⟨[]⟩ : OrderProcessingSystem).addOrder o1).addOrder o2).addOrder o3)

/-- Embedding of the exercise's `main`: populate the system, then look up the
orders with ids 1, 2 and 3 (each result is passed to `executeOrder`, which
only prints). `main` contains no try/catch, so any `Except.error` propagates. -/
def orderMainRun : Except String (Order × Order × Order) := do
  let sys ← populateOrders
  let a ← sys.getOrderById 1
  let b ← sys.getOrderById 2
  let c ← sys.getOrderById 3
  pure (a, b, c)

/-- The record invariant the constructor's range checks are meant to
establish: a named order type, positive price, quantity within 1..100000 and
a symbol of at most 8 characters. -/
def OrderInvariant (o : Order) : Prop :=
  (o.orderType = 'M' ∨ o.orderType = 'L' ∨ o.orderType = 'S') ∧
  0 < o.price ∧ 1 ≤ o.quantity ∧ o.quantity ≤ 100000 ∧ o.symbol.length ≤ 8

instance (o : Order) : Decidable (OrderInvariant o) := by
  unfold OrderInvariant
  infer_instance

end OrderProcessing

namespace OrderProcessing

/-- C1: the `Order` constructor throws an invalid-argument failure exactly
when one of its range checks fails (unnamed order type, non-positive price,
quantity outside 1..100000, or symbol longer than 8 characters); on every
argument tuple passing all four checks it throws nothing and initializes
`orderId`, `symbol`, `quantity`, `price` and `orderType` from the
corresponding arguments. -/
theorem order_constructor_throws_iff_check_fails (id : Int) (sym : String)
    (qty : Int) (prc : ℚ) (type : Char) :
    ((∃ msg, Order.mk? id sym qty prc type = Except.error msg) ↔
      (¬(type = 'M' ∨ type = 'L' ∨ type = 'S') ∨ prc ≤ 0 ∨
        qty < 1 ∨ 100000 < qty ∨ 8 < sym.length)) ∧
    (¬(¬(type = 'M' ∨ type = 'L' ∨ type = 'S') ∨ prc ≤ 0 ∨
        qty < 1 ∨ 100000 < qty ∨ 8 < sym.length) →
      Order.mk? id sym qty prc type = Except.ok ⟨id, sym, qty, prc, type⟩) := by
  unfold Order.mk?
  constructor
  · constructor
    · intro hmsg
      split_ifs at hmsg with h1 h2 h3 h4
      · exact Or.inl (by tauto)
      · exact Or.inr (Or.inl h2)
      · rcases h3 with h3 | h3
        · exact Or.inr (Or.inr (Or.inr (Or.inl h3)))
        · exact Or.inr (Or.inr (Or.inl h3))
      · exact Or.inr (Or.inr (Or.inr (Or.inr h4)))
      · rcases hmsg with ⟨msg, hmsg⟩
        exact absurd hmsg (by simp)
    · intro hbad
      split_ifs with h1 h2 h3 h4
      · exact ⟨"Invalid order type", rfl⟩
      · exact ⟨"Price must be positive", rfl⟩
      · exact ⟨"Quantity must be between 1 and 100000", rfl⟩
      · exact ⟨"Symbol must be 8 chars max", rfl⟩
      · exfalso
        rcases hbad with hbad | hbad | hbad | hbad | hbad
        · exact hbad (by tauto)
        · exact h2 hbad
        · exact h3 (Or.inr hbad)
        · exact h3 (Or.inl hbad)
        · exact h4 hbad
  · intro hok
    push_neg at hok
    obtain ⟨ht, hp, hq1, hq2, hs⟩ := hok
    split_ifs with h1 h2 h3 h4
    · exact absurd ht (by tauto)
    · exact absurd h2 (not_le.mpr hp)
    · exact absurd h3 (by omega)
    · exact absurd h4 (by omega)
    · rfl

/-- C1 witness: a failing tuple (quantity 0) and a passing tuple evaluated
concretely through the theorem. -/
theorem order_constructor_throws_iff_check_fails_witness :
    (∃ msg, Order.mk? 1 "AAPL" 0 150 'M' = Except.error msg) ∧
    Order.mk? 1 "AAPL" 100 150 'M' = Except.ok ⟨1, "AAPL", 100, 150, 'M'⟩ :=
  ⟨(order_constructor_throws_iff_check_fails 1 "AAPL" 0 150 'M').1.mpr
      (by decide),
    (order_constructor_throws_iff_check_fails 1 "AAPL" 100 150 'M').2
      (by decide)⟩

/-- C2 counterexample: an invalid-argument failure that does not come from the
`Order` constructor — `getOrderById` on a system holding no orders throws
`std::invalid_argument("Order not found")` (and the exercise's `main` has no
try/catch around its calls). -/
theorem getOrderById_throws_outside_constructor :
    OrderProcessingSystem.getOrderById ⟨[]⟩ 1 = Except.error "Order not found" :=
  rfl

/-- C2 (amended): in the order-processing exercise invalid-argument failures
can be raised not only by the `Order` constructor's range checks but also by
`getOrderById` and `getOrderBySymbol` when no stored order matches; `main`
installs no handler, and in the program's fixed run (three valid orders added
and then looked up by ids 1, 2 and 3) no failure is actually raised. -/
theorem order_exercise_failure_surface :
    orderMainRun = Except.ok
      (⟨1, "AAPL", 100, 150, 'M'⟩, ⟨2, "GOOG", 200, 2500, 'L'⟩,
        ⟨3, "MSFT", 300, 350, 'S'⟩) ∧
    (∃ sys : OrderProcessingSystem, ∃ id : Int,
      sys.getOrderById id = Except.error "Order not found") ∧
    (∃ sys : OrderProcessingSystem, ∃ s : String,
      sys.getOrderBySymbol s = Except.error "Order not found") :=
  ⟨rfl, ⟨⟨[]⟩, 2, rfl⟩, ⟨⟨[]⟩, "TSLA", rfl⟩⟩

/-- C8: the constructor's bounds checks establish `OrderInvariant`, `addOrder`
preserves it across the whole stored vector, and any order returned by
`getOrderById` or `getOrderBySymbol` from an invariant-respecting system
satisfies it. -/
theorem stored_orders_satisfy_invariant (id : Int) (sym : String) (qty : Int)
    (prc : ℚ) (type : Char) (o newOrder r : Order) (sys : OrderProcessingSystem)
    (n : Int) (s : String) :
    (Order.mk? id sym qty prc type = Except.ok o → OrderInvariant o) ∧
    ((∀ x ∈ sys.orders, OrderInvariant x) → OrderInvariant newOrder →
      ∀ x ∈ (sys.addOrder newOrder).orders, OrderInvariant x) ∧
    ((∀ x ∈ sys.orders, OrderInvariant x) →
      sys.getOrderById n = Except.ok r → OrderInvariant r) ∧
    ((∀ x ∈ sys.orders, OrderInvariant x) →
      sys.getOrderBySymbol s = Except.ok r → OrderInvariant r) := by
  refine ⟨?_, ?_, ?_, ?_⟩
  · intro h
    unfold Order.mk? at h
    split_ifs at h with h1 h2 h3 h4
    have heq := Except.ok.inj h
    subst heq
    unfold OrderInvariant
    refine ⟨?_, ?_, ?_, ?_, ?_⟩
    · show type = 'M' ∨ type = 'L' ∨ type = 'S'
      tauto
    · show (0 : ℚ) < prc
      exact not_le.mp h2
    · show 1 ≤ qty
      omega
    · show qty ≤ 100000
      omega
    · show sym.length ≤ 8
      omega
  · intro hall hnew x hx
    unfold OrderProcessingSystem.addOrder at hx
    simp only [List.mem_append, List.mem_singleton] at hx
    rcases hx with hx | rfl
    · exact hall x hx
    · exact hnew
  · intro hall hok
    unfold OrderProcessingSystem.getOrderById at hok
    cases hfind : sys.orders.find? (fun order => order.orderId == n) with
    | none => rw [hfind] at hok; exact absurd hok (by simp)
    | some found =>
        rw [hfind] at hok
        exact Except.ok.inj hok ▸ hall found (List.mem_of_find?_eq_some hfind)
  · intro hall hok
    unfold OrderProcessingSystem.getOrderBySymbol at hok
    cases hfind : sys.orders.find? (fun order => order.symbol == s) with
    | none => rw [hfind] at hok; exact absurd hok (by simp)
    | some found =>
        rw [hfind] at hok
        exact Except.ok.inj hok ▸ hall found (List.mem_of_find?_eq_some hfind)

/-- C8 witness: the invariant checked concretely through each conjunct of the
theorem — on a constructed order, on `addOrder` into an empty system, and on
the results of both lookups. -/
theorem stored_orders_satisfy_invariant_witness :
    OrderInvariant ⟨1, "AAPL", 100, 150, 'M'⟩ ∧
    (∀ x ∈ (OrderProcessingSystem.addOrder ⟨[]⟩ ⟨1, "AAPL", 100, 150, 'M'⟩).orders,
      OrderInvariant x) ∧
    OrderInvariant ⟨2, "GOOG", 200, 2500, 'L'⟩ ∧
    OrderInvariant ⟨3, "MSFT", 300, 350, 'S'⟩ := by
  refine ⟨?_, ?_, ?_, ?_⟩
  · exact (stored_orders_satisfy_invariant 1 "AAPL" 100 150 'M'
      ⟨1, "AAPL", 100, 150, 'M'⟩ ⟨1, "AAPL", 100, 150, 'M'⟩
      ⟨1, "AAPL", 100, 150, 'M'⟩ ⟨[]⟩ 1 "AAPL").1 rfl
  · exact (stored_orders_satisfy_invariant 1 "AAPL" 100 150 'M'
      ⟨1, "AAPL", 100, 150, 'M'⟩ ⟨1, "AAPL", 100, 150, 'M'⟩
      ⟨1, "AAPL", 100, 150, 'M'⟩ ⟨[]⟩ 1 "AAPL").2.1 (by simp) (by decide)
  · exact (stored_orders_satisfy_invariant 2 "GOOG" 200 2500 'L'
      ⟨2, "GOOG", 200, 2500, 'L'⟩ ⟨2, "GOOG", 200, 2500, 'L'⟩
      ⟨2, "GOOG", 200, 2500, 'L'⟩ ⟨[⟨2, "GOOG", 200, 2500, 'L'⟩]⟩ 2
      "GOOG").2.2.1 (by decide) rfl
  · exact (stored_orders_satisfy_invariant 3 "MSFT" 300 350 'S'
      ⟨3, "MSFT", 300, 350, 'S'⟩ ⟨3, "MSFT", 300, 350, 'S'⟩
      ⟨3, "MSFT", 300, 350, 'S'⟩ ⟨[⟨3, "MSFT", 300, 350, 'S'⟩]⟩ 3
      "MSFT").2.2.2 (by decide) rfl

end OrderProcessing

namespace Debugging

/-- The indices the loop of `calculateSum` in
`phase0/step1/exercise3-debugging-practice/debug_me.cpp` reads: `for (size_t
i = 0; i <= numbers.size(); i++)` visits `0, 1, ..., numbers.size()`
inclusive. -/
def accessedIndices (numbers : List Int) : List Nat :=
  List.range (numbers.length + 1)

/-- Embedding of `calculateSum`: accumulate `numbers[i]` over every index the
loop visits. A read of `numbers[i]` with `i` out of bounds is undefined
behavior in C++ and is modelled as `none`. -/
def calculateSum (numbers : List Int) : Option Int :=
  (accessedIndices numbers).foldlM
    (fun sum i => (numbers[i]?).map (fun x => sum + x)) 0

lemma foldlM_read_out_of_range_eq_none (numbers : List Int) :
    ∀ (idxs : List Nat) (init : Int), (∃ i ∈ idxs, numbers.length ≤ i) →
      idxs.foldlM (fun sum i => (numbers[i]?).map (fun x => sum + x)) init =
        none := by
  intro idxs
  induction idxs with
  | nil =>
      intro init h
      rcases h with ⟨i, hi, _⟩
      exact absurd hi (List.not_mem_nil i)
  | cons a rest ih =>
      intro init h
      simp only [List.foldlM]
      rcases h with ⟨i, hi, hlen⟩
      rcases List.mem_cons.mp hi with rfl | hrest
      · rw [List.getElem?_eq_none hlen]
        rfl
      · cases hx : numbers[a]? with
        | none => simp [hx]
        | some x =>
            exact ih (init + x) ⟨i, hrest, hlen⟩

end Debugging

namespace Debugging

/-- C3: the loop bound `i <= numbers.size()` is an out-of-bounds bug — for
every non-empty input vector the loop's final iteration reads the vector at
index `numbers.size()`, one past the last valid element, so not all of the
function's reads are in bounds. -/
theorem calculateSum_reads_out_of_bounds (numbers : List Int)
    (_h : numbers ≠ []) :
    (accessedIndices numbers).getLast? = some numbers.length ∧
    numbers[numbers.length]? = none ∧
    calculateSum numbers = none := by
  refine ⟨?_, ?_, ?_⟩
  · unfold accessedIndices
    rw [List.range_succ]
    exact List.getLast?_concat _
  · exact List.getElem?_eq_none (le_refl _)
  · exact foldlM_read_out_of_range_eq_none numbers (accessedIndices numbers) 0
      ⟨numbers.length, List.mem_range.mpr (Nat.lt_succ_self _), le_refl _⟩

/-- C3 witness: evaluated on the fixed vector `{1, 2, 3, 4, 5}` from the
exercise's `main`. -/
theorem calculateSum_reads_out_of_bounds_witness :
    (accessedIndices [1, 2, 3, 4, 5]).getLast? = some 5 ∧
    ([1, 2, 3, 4, 5] : List Int)[5]? = none ∧
    calculateSum [1, 2, 3, 4, 5] = none :=
  calculateSum_reads_out_of_bounds [1, 2, 3, 4, 5] (by decide)

end Debugging

namespace PriceCalc

/-- Both VWAP methods in
`phase1/step1/exercise3-price-calculator/price_calculator.cpp` accumulate,
in vector order, the running total volume (first component) and total
price·volume (second component), starting from zero. A bid is a
(price, volume) pair. -/
def vwapTotals (bids : List (ℚ × Int)) : ℚ × ℚ :=
  bids.foldl
    (fun acc bid => (acc.1 + (bid.2 : ℚ), acc.2 + bid.1 * (bid.2 : ℚ))) (0, 0)

/-- The `double` division both methods end with. A zero divisor makes the
IEEE result non-finite (NaN when the numerator is also zero, as happens for
an empty bid vector), modelled as `none`; otherwise the exact quotient. -/
def fpDiv (num den : ℚ) : Option ℚ :=
  if den = 0 then none else some (num / den)

/-- Embedding of `PriceCalculator::calculateVWAP`: one pass accumulating the
totals, then an unguarded division `totalPriceVolume / totalVolume`. -/
def calculateVWAP (bids : List (ℚ × Int)) : Option ℚ :=
  fpDiv (vwapTotals bids).2 (vwapTotals bids).1

/-- Embedding of `PriceCalculator::calculateVWAPWithPointers`: returns `0.0`
immediately on an empty vector, otherwise walks the same elements in the same
order with pointer arithmetic, accumulating the same totals, and ends with
the same division. -/
def calculateVWAPWithPointers (bids : List (ℚ × Int)) : Option ℚ :=
  if bids = [] then some 0
  else fpDiv (vwapTotals bids).2 (vwapTotals bids).1

/-- C4: on every non-empty bid vector the two VWAP methods agree (both are
total price·volume divided by total volume); on the empty vector they differ —
the pointer variant returns `0.0` while `calculateVWAP` performs the
unguarded division of 0 by 0, whose result is not a finite number. -/
theorem vwap_methods_agree (bids : List (ℚ × Int)) :
    (bids ≠ [] →
      calculateVWAP bids = calculateVWAPWithPointers bids ∧
      calculateVWAP bids = fpDiv (vwapTotals bids).2 (vwapTotals bids).1) ∧
    calculateVWAPWithPointers [] = some 0 ∧
    calculateVWAP [] = fpDiv 0 0 ∧
    fpDiv 0 0 = none := by
  refine ⟨?_, rfl, rfl, rfl⟩
  intro h
  refine ⟨?_, rfl⟩
  unfold calculateVWAP calculateVWAPWithPointers
  rw [if_neg h]

/-- C4 witness: the two methods evaluated on the sample bid vector from the
exercise's `main` (prices 100.50 … 104.50). -/
theorem vwap_methods_agree_witness :
    calculateVWAP
        [((201 : ℚ)/2, 1000), (405/4, 1500), (102, 2000), (415/4, 1750),
          (209/2, 1200)] =
      calculateVWAPWithPointers
        [((201 : ℚ)/2, 1000), (405/4, 1500), (102, 2000), (415/4, 1750),
          (209/2, 1200)] :=
  ((vwap_methods_agree _).1 (by decide)).1

end PriceCalc

namespace Formatting

/-- The literal vector from `phase0/step1/exercise4-formatting/ugly-after.cpp`. -/
def numbers : List Int := [3, 1, 4, 1, 5, 9, 2, 6]

/-- Embedding of the `std::sort(numbers.begin(), numbers.end())` call:
`std::sort` produces an ascending reordering of its range, computed here by
insertion sort. -/
def sortedNumbers : List Int := List.insertionSort (· ≤ ·) numbers

/-- C5: sorting the fixed vector `{3, 1, 4, 1, 5, 9, 2, 6}` yields
`{1, 1, 2, 3, 4, 5, 6, 9}`, which is a non-decreasing permutation of the
input — the sequence the exercise then prints. -/
theorem sort_fixed_vector :
    sortedNumbers = [1, 1, 2, 3, 4, 5, 6, 9] ∧
    sortedNumbers.Perm numbers ∧
    List.Sorted (fun a b => a ≤ b) sortedNumbers := by
  refine ⟨by decide, List.perm_insertionSort _ _, ?_⟩
  exact List.sorted_insertionSort _ _

end Formatting

namespace Calculator

/-- Modelled from the spec: the `Calculator` implementation (`calculator.h`
and its source) is missing from the repository snapshot — only its caller
`phase0/step1/exercise2-cmake-project-structure/src/main.cpp` is present.
The spec pins `add(1,2) == 3` and that dividing by zero raises an error
(caught in `main` as `std::invalid_argument`); the four methods named by the
caller are modelled accordingly, with integer division truncating toward
zero as in C++. -/
def add (a b : Int) : Int := a + b

def subtract (a b : Int) : Int := a - b

def multiply (a b : Int) : Int := a * b

def divide (a b : Int) : Except String Int :=
  if b = 0 then Except.error "Division by zero" else Except.ok (Int.tdiv a b)

/-- Embedding of the exercise's `main`: print `add(1,2)`, `subtract(1,2)` and
`multiply(1,2)` to standard output, then call `divide(1, 0)` inside a try
block, catching `std::invalid_argument` and printing `"Error: "` plus the
message to the error stream instead of a quotient. Returns the lines written
to standard output and to the error stream. -/
def calcMain : List String × List String :=
  let out1 := toString (add 1 2)
  let out2 := toString (subtract 1 2)
  let out3 := toString (multiply 1 2)
  match divide 1 0 with
  | Except.ok q => ([out1, out2, out3, toString q], [])
  | Except.error msg => ([out1, out2, out3], ["Error: " ++ msg])

/-- C6: `add(1,2)` returns 3, and `divide(1, 0)` raises an invalid-argument
failure which `main` catches and prints to the error stream — the quotient
never reaches standard output. -/
theorem add_and_divide_by_zero :
    add 1 2 = 3 ∧
    (∃ msg, divide 1 0 = Except.error msg) ∧
    calcMain.1 = ["3", "-1", "2"] ∧
    calcMain.2 = ["Error: Division by zero"] :=
  ⟨rfl, ⟨"Division by zero", rfl⟩, rfl, rfl⟩

end Calculator

namespace Logging

/-- A field of a CSV row as written by the `operator<<` chain in
`phase1/step1/exercise4-logging-and-io/logging.cpp`; the value is kept
structured rather than committed to a particular decimal rendering. -/
inductive CsvField
  | intF : Int → CsvField
  | ratF : ℚ → CsvField
  | natF : Nat → CsvField
  | strF : String → CsvField
  | charF : Char → CsvField
  deriving Repr, DecidableEq

/-- Embedding of `MarketLogger::log_market_data`. The CSV file opened in
append mode is modelled as `some rows` when it can be opened and `none` when
it cannot (`is_open()` false). On success one row
`timestamp,price,volume,symbol` is appended and the call returns `true`; when
the file cannot be opened nothing is appended and the call returns `false`.
The spdlog console/file log lines are outside the CSV file and not modelled. -/
def log_market_data (csv : Option (List (List CsvField))) (symbol : String)
    (price : ℚ) (volume : Int) (timestamp : Nat) :
    Option (List (List CsvField)) × Bool :=
  match csv with
  | some rows =>
      (some (rows ++ [[CsvField.natF timestamp, CsvField.ratF price,
        CsvField.intF volume, CsvField.strF symbol]]), true)
  | none => (none, false)

/-- Embedding of `MarketLogger::log_order`: on success one row
`order_id,symbol,quantity,price,order_type` is appended to the orders CSV
file and the call returns `true`; when the file cannot be opened nothing is
appended and the call returns `false`. -/
def log_order (csv : Option (List (List CsvField))) (order_id : Int)
    (symbol : String) (quantity : Int) (price : ℚ) (order_type : Char) :
    Option (List (List CsvField)) × Bool :=
  match csv with
  | some rows =>
      (some (rows ++ [[CsvField.intF order_id, CsvField.strF symbol,
        CsvField.intF quantity, CsvField.ratF price,
        CsvField.charF order_type]]), true)
  | none => (none, false)

/-- C7: each successful `log_market_data` call appends exactly one row of the
form `timestamp,price,volume,symbol` and returns `true`; each successful
`log_order` call appends exactly one row of the form
`order_id,symbol,quantity,price,order_type` and returns `true`; when the CSV
file cannot be opened either call appends nothing and returns `false`. -/
theorem logging_appends_one_csv_row (rows : List (List CsvField))
    (symbol : String) (price : ℚ) (volume : Int) (timestamp : Nat)
    (order_id quantity : Int) (order_type : Char) :
    log_market_data (some rows) symbol price volume timestamp =
      (some (rows ++ [[CsvField.natF timestamp, CsvField.ratF price,
        CsvField.intF volume, CsvField.strF symbol]]), true) ∧
    log_market_data none symbol price volume timestamp = (none, false) ∧
    log_order (some rows) order_id symbol quantity price order_type =
      (some (rows ++ [[CsvField.intF order_id, CsvField.strF symbol,
        CsvField.intF quantity, CsvField.ratF price,
        CsvField.charF order_type]]), true) ∧
    log_order none order_id symbol quantity price order_type = (none, false) :=
  ⟨rfl, rfl, rfl, rfl⟩

end Logging

namespace HelloWorld

/-- Embedding of `phase0/step1/hello-world/src/main.cpp`: print a prompt,
read one line with `std::getline` (an exhausted stream yields the empty
string), substitute `"World"` when the line read is empty, then print the
greeting and the standard-version banner (the `__cplusplus` macro value is a
compile-time parameter here). Returns the unread remainder of standard input
and the text written to standard output. -/
def helloMain (cplusplus : Nat) (stdin : List String) :
    List String × List String :=
  let line := stdin.headD ""
  let name := if line.isEmpty then "World" else line
  (stdin.tail,
    ["Hello! What's your name? ",
      "Hello, " ++ name ++ "! Welcome to C++!",
      "You're using C++ standard: " ++ toString cplusplus])

/-- C9: the program consumes exactly one line of standard input and greets by
that line's content, except that an empty line is replaced by `"World"`, so
for empty input the greeting printed is `"Hello, World! Welcome to C++!"`. -/
theorem hello_greets_first_line (cplusplus : Nat) (stdin : List String) :
    (helloMain cplusplus stdin).1 = stdin.tail ∧
    (stdin.headD "" ≠ "" →
      (helloMain cplusplus stdin).2[1]? =
        some ("Hello, " ++ stdin.headD "" ++ "! Welcome to C++!")) ∧
    (stdin.headD "" = "" →
      (helloMain cplusplus stdin).2[1]? =
        some "Hello, World! Welcome to C++!") := by
  refine ⟨rfl, ?_, ?_⟩
  · intro h
    cases stdin with
    | nil => exact absurd rfl h
    | cons a rest =>
        simp only [List.headD_cons] at h ⊢
        have ha : a.isEmpty = false := by
          cases hc : a.isEmpty
          · rfl
          · exact absurd ((String.isEmpty_iff a).mp hc) h
        unfold helloMain
        simp [ha]
  · intro h
    cases stdin with
    | nil => rfl
    | cons a rest =>
        simp only [List.headD_cons] at h
        subst h
        rfl

/-- C9 witness: on a standard input consisting of one empty line the program
consumes it and prints the default greeting. -/
theorem hello_greets_first_line_witness :
    (helloMain 201703 [""]).1 = [] ∧
    (helloMain 201703 [""]).2[1]? = some "Hello, World! Welcome to C++!" :=
  ⟨(hello_greets_first_line 201703 [""]).1,
    (hello_greets_first_line 201703 [""]).2.2 rfl⟩

end HelloWorld

namespace BasicMarketData

/-- Embedding of `struct MarketData` from
`phase1/step1/exercise1-basic-market-data/basic_markte_data.cpp`: a symbol
buffer (`std::array<char, 9>`), a `double` price, an `int` volume and a
64-bit timestamp. -/
structure MarketData where
  symbol : List Char
  price : ℚ
  volume : Int
  timestamp : Int
  deriving Repr, DecidableEq

/-- Embedding of `class MarketDataManager`: its single data member, the
`std::vector<MarketData> marketData`. -/
structure MarketDataManager where
  marketData : List MarketData
  deriving Repr, DecidableEq

/-- Embedding of `MarketDataManager::findHighestVolume`: start `highestVolume`
at 0, scan the stored records replacing it whenever a record's volume is
strictly larger, and print the result. The pair returned is the printed value
and the manager state after the call. -/
def MarketDataManager.findHighestVolume (m : MarketDataManager) :
    Int × MarketDataManager :=
  (m.marketData.foldl
    (fun highestVolume d =>
      if d.volume > highestVolume then d.volume else highestVolume) 0, m)

lemma foldl_highest_eq_foldl_max (l : List MarketData) :
    ∀ a : Int,
      l.foldl (fun highestVolume d =>
        if d.volume > highestVolume then d.volume else highestVolume) a =
      (l.map MarketData.volume).foldl max a := by
  induction l with
  | nil => intro a; rfl
  | cons d rest ih =>
      intro a
      simp only [List.foldl_cons, List.map_cons]
      rw [ih]
      rcases lt_or_le a d.volume with h | h
      · rw [if_pos h, max_eq_right (le_of_lt h)]
      · rw [if_neg (not_lt.mpr h), max_eq_left h]

lemma le_foldl_max (l : List Int) : ∀ a : Int, a ≤ l.foldl max a := by
  induction l with
  | nil => intro a; exact le_refl a
  | cons x rest ih =>
      intro a
      exact le_trans (le_max_left a x) (ih (max a x))

lemma foldl_max_le (l : List Int) :
    ∀ a b : Int, a ≤ b → (∀ x ∈ l, x ≤ b) → l.foldl max a ≤ b := by
  induction l with
  | nil => intro a b hab _; exact hab
  | cons x rest ih =>
      intro a b hab hall
      exact ih (max a x) b (max_le hab (hall x (List.mem_cons_self x rest)))
        (fun y hy => hall y (List.mem_cons_of_mem x hy))

lemma foldl_max_eq_or_mem (l : List Int) :
    ∀ a : Int, l.foldl max a = a ∨ l.foldl max a ∈ l := by
  induction l with
  | nil => intro a; exact Or.inl rfl
  | cons x rest ih =>
      intro a
      rcases ih (max a x) with h | h
      · rcases le_or_lt x a with hxa | hxa
        · rw [List.foldl_cons, h, max_eq_left hxa]
          exact Or.inl rfl
        · rw [List.foldl_cons, h, max_eq_right (le_of_lt hxa)]
          exact Or.inr (List.mem_cons_self x rest)
      · rw [List.foldl_cons]
        exact Or.inr (List.mem_cons_of_mem x h)

lemma mem_le_foldl_max (l : List Int) :
    ∀ (a x : Int), x ∈ l → x ≤ l.foldl max a := by
  induction l with
  | nil =>
      intro a x hx
      exact absurd hx (List.not_mem_nil x)
  | cons y rest ih =>
      intro a x hx
      rcases List.mem_cons.mp hx with rfl | hx
      · exact le_trans (le_max_right a x) (le_foldl_max rest (max a x))
      · exact ih (max a y) x hx

/-- C10: `findHighestVolume` prints the maximum of 0 and the volumes of all
stored records — 0 when no record has been added or every volume is
non-positive, and otherwise the largest stored volume — and it never modifies
the stored records. -/
theorem findHighestVolume_prints_max (m : MarketDataManager) :
    m.findHighestVolume.2 = m ∧
    m.findHighestVolume.1 = (m.marketData.map MarketData.volume).foldl max 0 ∧
    ((∀ d ∈ m.marketData, d.volume ≤ 0) → m.findHighestVolume.1 = 0) ∧
    ((∃ d ∈ m.marketData, 0 < d.volume) →
      m.findHighestVolume.1 ∈ m.marketData.map MarketData.volume ∧
      ∀ d ∈ m.marketData, d.volume ≤ m.findHighestVolume.1) := by
  have hfold : m.findHighestVolume.1 =
      (m.marketData.map MarketData.volume).foldl max 0 :=
    foldl_highest_eq_foldl_max m.marketData 0
  refine ⟨rfl, hfold, ?_, ?_⟩
  · intro hall
    rw [hfold]
    refine le_antisymm ?_ (le_foldl_max _ 0)
    refine foldl_max_le _ 0 0 (le_refl 0) ?_
    intro x hx
    rcases List.mem_map.mp hx with ⟨d, hd, rfl⟩
    exact hall d hd
  · intro hpos
    rcases hpos with ⟨d0, hd0, hd0pos⟩
    have hge : d0.volume ≤ m.findHighestVolume.1 := by
      rw [hfold]
      exact mem_le_foldl_max _ 0 d0.volume (List.mem_map_of_mem MarketData.volume hd0)
    constructor
    · rw [hfold]
      rcases foldl_max_eq_or_mem (m.marketData.map MarketData.volume) 0 with h | h
      · exfalso
        rw [hfold] at hge
        rw [h] at hge
        exact absurd (lt_of_lt_of_le hd0pos hge) (lt_irrefl 0)
      · exact h
    · intro d hd
      rw [hfold]
      exact mem_le_foldl_max _ 0 d.volume (List.mem_map_of_mem MarketData.volume hd)

/-- C10 witness: evaluated through the theorem on a two-record manager with a
positive top volume and on a one-record manager whose only volume is
negative. -/
theorem findHighestVolume_prints_max_witness :
    ((⟨[⟨['A'], 1, 500, 0⟩, ⟨['B'], 2, 300, 1⟩]⟩ :
        MarketDataManager).findHighestVolume.1 ∈
      ([⟨['A'], 1, 500, 0⟩, ⟨['B'], 2, 300, 1⟩] :
        List MarketData).map MarketData.volume) ∧
    (⟨[⟨['C'], 1, -5, 0⟩]⟩ : MarketDataManager).findHighestVolume.1 = 0 :=
  ⟨((findHighestVolume_prints_max
      ⟨[⟨['A'], 1, 500, 0⟩, ⟨['B'], 2, 300, 1⟩]⟩).2.2.2 (by decide)).1,
    (findHighestVolume_prints_max ⟨[⟨['C'], 1, -5, 0⟩]⟩).2.2.1 (by decide)⟩

end BasicMarketData
